import Mathlib

/-!
Verification of the Security LLM Proxy Service request pipeline and its
collaborators (rate limiter, cache, policy enforcement, logging, error
filter).  The definitions below are shallow embeddings of the TypeScript
source: JavaScript values are modelled as a JSON tree, machine numbers as
`Int`/`Nat`, asynchronous calls as explicit oracle parameters, and thrown
exceptions as explicit result variants.
-/

namespace LassoProxy

/-! ### String helpers (JS `String.prototype.includes`, `toLowerCase`) -/

/-- Does the character list `l` start with `p`? -/
def charsStartWith : List Char → List Char → Bool
  | _, [] => true
  | [], _ :: _ => false
  | a :: as, b :: bs => a == b && charsStartWith as bs

/-- Does the character list `l` contain `p` as a contiguous sublist? -/
def charsContain : List Char → List Char → Bool
  | l, p =>
    if charsStartWith l p then true
    else match l with
      | [] => false
      | _ :: t => charsContain t p

/-- Embedding of JS `haystack.includes(needle)`. -/
def strContains (haystack needle : String) : Bool :=
  charsContain haystack.data needle.data

/-- Embedding of JS `s.toLowerCase()` (ASCII-faithful). -/
def jsToLower (s : String) : String :=
  String.mk (s.data.map Char.toLower)

/-- Strip leading whitespace from a character list. -/
def dropLeadingWs : List Char → List Char
  | [] => []
  | c :: t => if c.isWhitespace then dropLeadingWs t else c :: t

/-- Embedding of JS `s.trim()`. -/
def jsTrim (s : String) : String :=
  String.mk (((dropLeadingWs s.data).reverse |> dropLeadingWs).reverse)

/-! ### JSON values (JS request bodies)

The inbound body is arbitrary JSON; we follow the spec's data model of a
tagged tree.  Arrays and objects are given by mutual inductives so that
all traversals are structural and kernel-reducible. -/

mutual
inductive JsValue where
  | null : JsValue
  | bool (b : Bool) : JsValue
  | num (n : Int) : JsValue
  | str (s : String) : JsValue
  | arr (xs : JsArray) : JsValue
  | obj (fs : JsObject) : JsValue
deriving DecidableEq

inductive JsArray where
  | nil : JsArray
  | cons (v : JsValue) (t : JsArray) : JsArray
deriving DecidableEq

inductive JsObject where
  | nil : JsObject
  | cons (k : String) (v : JsValue) (t : JsObject) : JsObject
deriving DecidableEq
end

/-- Build a `JsArray` from a list. -/
def mkArr : List JsValue → JsArray
  | [] => .nil
  | v :: t => .cons v (mkArr t)

/-- Build a `JsObject` from an association list. -/
def mkObj : List (String × JsValue) → JsObject
  | [] => .nil
  | (k, v) :: t => .cons k v (mkObj t)

/-- Field lookup, the embedding of JS `o[k]` on object literals
(`none` plays the role of `undefined`). -/
def objGet : JsObject → String → Option JsValue
  | .nil, _ => none
  | .cons k v t, k' => if k = k' then some v else objGet t k'

/-- Field lookup on an arbitrary value: property access on a non-object
yields `undefined`. -/
def jsGet (v : JsValue) (k : String) : Option JsValue :=
  match v with
  | .obj fs => objGet fs k
  | _ => none

/-- JS truthiness of a value. -/
def jsTruthy : JsValue → Bool
  | .null => false
  | .bool b => b
  | .num n => n != 0
  | .str s => s ≠ ""
  | .arr _ => true
  | .obj _ => true

/-- JSON string escaping as performed by `JSON.stringify` (restricted to
the escapes exercised by this code base). -/
def jsEscapeChar (c : Char) : String :=
  if c = '"' then "\\\""
  else if c = '\\' then "\\\\"
  else if c = '\n' then "\\n"
  else if c = '\r' then "\\r"
  else if c = '\t' then "\\t"
  else String.singleton c

/-- `JSON.stringify` on a string. -/
def jsStringifyStr (s : String) : String :=
  "\"" ++ String.join (s.data.map jsEscapeChar) ++ "\""

mutual
/-- Embedding of `JSON.stringify` over the JSON tree. -/
def jsStringify : JsValue → String
  | .null => "null"
  | .bool b => if b then "true" else "false"
  | .num n => toString n
  | .str s => jsStringifyStr s
  | .arr xs => "[" ++ jsStringifyArr xs ++ "]"
  | .obj fs => "\x7b" ++ jsStringifyObj fs ++ "\x7d"

/-- Serialise array elements, comma-separated. -/
def jsStringifyArr : JsArray → String
  | .nil => ""
  | .cons v t =>
    jsStringify v ++ (match t with | .nil => "" | .cons _ _ => ",") ++ jsStringifyArr t

/-- Serialise object fields, comma-separated. -/
def jsStringifyObj : JsObject → String
  | .nil => ""
  | .cons k v t =>
    jsStringifyStr k ++ ":" ++ jsStringify v ++
      (match t with | .nil => "" | .cons _ _ _ => ",") ++ jsStringifyObj t
end

/-! ### Bytes and base64 (JS `Buffer.from(s).toString('base64')`) -/

/-- UTF-8 encoding of one character. -/
def utf8EncodeChar (c : Char) : List Nat :=
  let n := c.toNat
  if n < 0x80 then [n]
  else if n < 0x800 then [0xC0 + n / 64, 0x80 + n % 64]
  else if n < 0x10000 then [0xE0 + n / 4096, 0x80 + (n / 64) % 64, 0x80 + n % 64]
  else [0xF0 + n / 262144, 0x80 + (n / 4096) % 64, 0x80 + (n / 64) % 64, 0x80 + n % 64]

/-- UTF-8 encoding of a string, the embedding of `Buffer.from(s)`. -/
def utf8Encode (s : String) : List Nat :=
  (s.data.map utf8EncodeChar).flatten

/-- The base64 alphabet. -/
def b64Alphabet : List Char :=
  "ABCDEFGHIJKLMNOPQRSTUVWXYZabcdefghijklmnopqrstuvwxyz0123456789+/".data

/-- The base64 digit for a 6-bit value. -/
def b64Char (n : Nat) : Char := b64Alphabet.getD n 'A'

/-- Standard base64 encoding of a byte list, the embedding of
`buf.toString('base64')`. -/
def base64Encode : List Nat → List Char
  | [] => []
  | [b1] => [b64Char (b1 / 4), b64Char (b1 % 4 * 16), '=', '=']
  | [b1, b2] => [b64Char (b1 / 4), b64Char (b1 % 4 * 16 + b2 / 16), b64Char (b2 % 16 * 4), '=']
  | b1 :: b2 :: b3 :: rest =>
    b64Char (b1 / 4) :: b64Char (b1 % 4 * 16 + b2 / 16) ::
      b64Char (b2 % 16 * 4 + b3 / 64) :: b64Char (b3 % 64) :: base64Encode rest

/-- `CacheService.generateCacheKey`: provider, path, and the first 32
base64 characters of the serialised sanitised body. -/
def generateCacheKey (provider path : String) (sanitizedBody : JsValue) : String :=
  let bodyHash := jsStringify sanitizedBody
  "proxy:" ++ provider ++ ":" ++ path ++ ":" ++
    String.mk ((base64Encode (utf8Encode bodyHash)).take 32)

/-! ### RateLimitingService (token buckets with lazy refill)

Timestamps are `Date.now()` milliseconds, modelled as `Int`; the
floating-point `Math.floor((elapsed / interval) * rate)` is modelled as
exact rational floor, i.e. `Int.fdiv (elapsed * rate) interval`. -/

/-- The per-identity bucket (`RateLimitInfo` in the source). -/
structure RateLimitInfo where
  tokens : Int
  lastRefill : Int
deriving DecidableEq, Repr

/-- Rate limiter configuration (the three env-derived constants). -/
structure RLConfig where
  maxTokens : Int
  refillRate : Int
  refillInterval : Int
deriving DecidableEq, Repr

/-- The `rateLimitStore` map, as a function to `Option`. -/
def RLStore := String → Option RateLimitInfo

/-- `Math.floor((timeElapsed / this.refillInterval) * this.refillRate)`. -/
def refillAmount (cfg : RLConfig) (elapsed : Int) : Int :=
  Int.fdiv (elapsed * cfg.refillRate) cfg.refillInterval

/-- The lazy-refill step of `isAllowed`: add tokens for the elapsed time,
cap at `maxTokens`, and advance `lastRefill` — exactly when the amount is
positive. -/
def refillBucket (cfg : RLConfig) (now : Int) (b : RateLimitInfo) : RateLimitInfo :=
  let tokensToAdd := refillAmount cfg (now - b.lastRefill)
  if 0 < tokensToAdd then
    { tokens := min cfg.maxTokens (b.tokens + tokensToAdd), lastRefill := now }
  else b

/-- Point update of the store (`this.rateLimitStore.set(ip, info)`). -/
def rlSet (st : RLStore) (ip : String) (info : RateLimitInfo) : RLStore :=
  fun j => if j = ip then some info else st j

/-- Point deletion (`this.rateLimitStore.delete(ip)`). -/
def rlDelete (st : RLStore) (ip : String) : RLStore :=
  fun j => if j = ip then none else st j

/-- `RateLimitingService.isAllowed(ip, tokensRequired)` at clock value
`now`: returns the decision and the updated store. -/
def isAllowed (cfg : RLConfig) (st : RLStore) (now : Int) (ip : String)
    (tokensRequired : Int) : Bool × RLStore :=
  let info := (st ip).getD { tokens := cfg.maxTokens, lastRefill := now }
  let info := refillBucket cfg now info
  if tokensRequired ≤ info.tokens then
    (true, rlSet st ip { tokens := info.tokens - tokensRequired, lastRefill := info.lastRefill })
  else
    (false, rlSet st ip info)

/-- `RateLimitingService.getRateLimitStatus(ip)`: a read-only projection,
returned without mutating the store. -/
def getRateLimitStatus (cfg : RLConfig) (st : RLStore) (now : Int) (ip : String) :
    Int × Int × Int :=
  match st ip with
  | none => (cfg.maxTokens, now + cfg.refillInterval, cfg.maxTokens)
  | some info =>
    let currentTokens := min cfg.maxTokens (info.tokens + refillAmount cfg (now - info.lastRefill))
    (max 0 currentTokens, info.lastRefill + cfg.refillInterval, cfg.maxTokens)

/-- `cleanup()`: drop buckets untouched for more than 24 hours. -/
def rlCleanup (st : RLStore) (now : Int) : RLStore :=
  fun j => match st j with
    | some info => if 24 * 60 * 60 * 1000 < now - info.lastRefill then none else some info
    | none => none

/-- One operation against the rate limiter, tagged with the clock value
at which it runs. -/
inductive RLOp where
  | allow (now : Int) (ip : String) (cost : Int)
  | status (now : Int) (ip : String)
  | reset (ip : String)
  | cleanup (now : Int)
deriving DecidableEq, Repr

/-- State transition of one operation (`getRateLimitStatus` reads only). -/
def rlStep (cfg : RLConfig) (st : RLStore) : RLOp → RLStore
  | .allow now ip cost => (isAllowed cfg st now ip cost).2
  | .status _ _ => st
  | .reset ip => rlDelete st ip
  | .cleanup now => rlCleanup st now

/-- Run a sequence of operations. -/
def rlRun (cfg : RLConfig) (st : RLStore) (ops : List RLOp) : RLStore :=
  ops.foldl (rlStep cfg) st

/-- The clock value an operation observes (`reset` takes none). -/
def rlOpTime : RLOp → Option Int
  | .allow now _ _ => some now
  | .status now _ => some now
  | .cleanup now => some now
  | .reset _ => none

/-- A monotone clock with non-negative costs: every operation's clock
value is at least `t` and the values are non-decreasing. -/
def rlOpsValid (t : Int) : List RLOp → Bool
  | [] => true
  | .allow now _ cost :: rest => t ≤ now && 0 ≤ cost && rlOpsValid now rest
  | .status now _ :: rest => t ≤ now && rlOpsValid now rest
  | .reset _ :: rest => rlOpsValid t rest
  | .cleanup now :: rest => t ≤ now && rlOpsValid now rest

/-- Bucket invariant at clock bound `t`: every stored bucket holds
between `0` and `maxTokens` tokens and was last refilled at or before
`t`. -/
def BucketsOK (cfg : RLConfig) (t : Int) (st : RLStore) : Prop :=
  ∀ ip b, st ip = some b → 0 ≤ b.tokens ∧ b.tokens ≤ cfg.maxTokens ∧ b.lastRefill ≤ t

/-! ### CacheService (fingerprint-keyed response cache with statistics)

The `cache-manager` backend is modelled from its documented NestJS
contract: `get` resolves to the stored value while it is unexpired and to
`null` otherwise, and either call may reject.  `CacheService` wraps it
with hit/miss/size/total counters. -/

/-- A cached upstream response (`status`, headers elided, body). -/
structure CachedResponse where
  status : Nat
  data : String
deriving DecidableEq, Repr

/-- The statistics record kept by `CacheService`. -/
structure CacheStats where
  hits : Nat
  misses : Nat
  size : Nat
  totalRequests : Nat
deriving DecidableEq, Repr

/-- Backend store: key to value plus absolute expiry instant. -/
def CacheBackend := String → Option (CachedResponse × Int)

/-- Full `CacheService` state: the backend plus the stats counters. -/
structure CacheState where
  backend : CacheBackend
  stats : CacheStats

/-- Initial cache state: empty backend, zeroed counters. -/
def cacheInit : CacheState :=
  { backend := fun _ => none,
    stats := { hits := 0, misses := 0, size := 0, totalRequests := 0 } }

/-- What the backend's `get` resolves to at time `now`: the entry while
`now < expires_at`, `null` otherwise. -/
def backendLookup (be : CacheBackend) (key : String) (now : Int) : Option CachedResponse :=
  match be key with
  | some (v, expiresAt) => if now < expiresAt then some v else none
  | none => none

/-- `CacheService.get(key)`: count the request, then a hit exactly when
the backend returns a value (`result !== null`), a miss otherwise —
including when the backend rejects (`fail = true`). -/
def cacheGet (cs : CacheState) (key : String) (now : Int) (fail : Bool) :
    Option CachedResponse × CacheState :=
  let stats := { cs.stats with totalRequests := cs.stats.totalRequests + 1 }
  if fail then
    (none, { cs with stats := { stats with misses := stats.misses + 1 } })
  else
    match backendLookup cs.backend key now with
    | some v => (some v, { cs with stats := { stats with hits := stats.hits + 1 } })
    | none => (none, { cs with stats := { stats with misses := stats.misses + 1 } })

/-- `CacheService.set(key, value, ttl)`: store with expiry `now + ttl`
and bump the size counter; a rejected backend call leaves everything but
the attempt untouched. -/
def cacheSet (cs : CacheState) (key : String) (v : CachedResponse) (ttl now : Int)
    (fail : Bool) : CacheState :=
  if fail then cs
  else
    { backend := fun j => if j = key then some (v, now + ttl) else cs.backend j,
      stats := { cs.stats with size := cs.stats.size + 1 } }

/-- `CacheService.resetStats()`. -/
def cacheResetStats (cs : CacheState) : CacheState :=
  { cs with stats := { hits := 0, misses := 0, size := 0, totalRequests := 0 } }

/-- `CacheService.getHitRate()`: `hits / totalRequests`, `0` on an empty
denominator. -/
def getHitRate (stats : CacheStats) : ℚ :=
  if stats.totalRequests = 0 then 0 else (stats.hits : ℚ) / (stats.totalRequests : ℚ)

/-- One operation against the cache service. -/
inductive CacheOp where
  | get (key : String) (now : Int) (fail : Bool)
  | set (key : String) (v : CachedResponse) (ttl now : Int) (fail : Bool)
  | resetStats
deriving Repr

/-- State transition of one cache operation. -/
def cacheStep (cs : CacheState) : CacheOp → CacheState
  | .get key now fail => (cacheGet cs key now fail).2
  | .set key v ttl now fail => cacheSet cs key v ttl now fail
  | .resetStats => cacheResetStats cs

/-- Run a sequence of cache operations from the initial state. -/
def cacheRun (ops : List CacheOp) : CacheState :=
  ops.foldl cacheStep cacheInit

/-! ### PolicyEnforcementService

The two LLM classification calls are modelled as oracles mapping the
submitted content to the trimmed reply text, `none` standing for a
transport failure.  Results carry the number of classifier calls made. -/

/-- The external classifier: primary pass and strict-mode verify pass. -/
structure ClassifierOracle where
  primary : String → Option String
  verify : String → Option String

/-- The fixed financial keyword dictionary of `hasFinancialKeywords`. -/
def financialKeywords : List String :=
  [ "bank account", "banking", "bank", "account", "checking account", "savings account",
    "deposit", "withdrawal", "transfer", "wire transfer", "direct deposit",
    "online banking", "mobile banking", "atm", "debit card", "credit card",
    "loan", "mortgage", "credit", "credit card", "credit score", "credit report",
    "borrow", "lending", "interest rate", "apr", "payment plan", "installment",
    "refinance", "home equity", "personal loan", "business loan", "student loan",
    "invest", "investment", "stock", "bond", "portfolio", "trading", "trader",
    "broker", "brokerage", "mutual fund", "etf", "dividend", "capital gains",
    "retirement", "401k", "ira", "roth", "pension", "annuity",
    "insurance", "policy", "premium", "claim", "coverage", "deductible",
    "life insurance", "health insurance", "auto insurance", "home insurance",
    "cryptocurrency", "crypto", "bitcoin", "ethereum", "blockchain", "wallet",
    "mining", "trading", "exchange", "ico", "token",
    "tax", "taxes", "tax return", "tax filing", "deduction", "exemption",
    "financial planning", "budget", "budgeting", "financial advisor",
    "wealth management", "estate planning", "trust", "will",
    "payment", "transaction", "billing", "invoice", "receipt", "refund",
    "paypal", "venmo", "zelle", "cash app", "stripe", "square",
    "financial services", "financial advice", "financial consultant",
    "wealth advisor", "money management", "asset management",
    "help me with my bank", "help with my account", "manage my money",
    "financial help", "money advice", "financial assistance" ]

/-- `hasFinancialKeywords(content)`. -/
def hasFinancialKeywords (content : String) : Bool :=
  let lowerContent := jsToLower content
  financialKeywords.any fun keyword => strContains lowerContent keyword

/-- The borderline-keyword list of `isBorderlineCase`. -/
def borderlineKeywords : List String :=
  [ "money", "cost", "price", "expensive", "cheap", "budget",
    "business", "company", "startup", "entrepreneur",
    "economy", "economic", "market", "industry" ]

/-- The clear-financial-keyword list of `isBorderlineCase`. -/
def clearFinancialKeywords : List String :=
  [ "loan", "mortgage", "credit", "investment", "stock", "bond",
    "insurance", "banking", "cryptocurrency", "tax", "payment",
    "transaction", "portfolio", "trading", "account", "bank",
    "deposit", "withdrawal", "transfer", "financial", "advisor" ]

/-- `isBorderlineCase(content)`. -/
def isBorderlineCase (content : String) : Bool :=
  let lowerContent := jsToLower content
  (borderlineKeywords.any fun keyword => strContains lowerContent keyword) &&
    !(clearFinancialKeywords.any fun keyword => strContains lowerContent keyword)

/-- `verifyFinancialContent(content)`: one classifier call; a transport
failure is caught and yields `false` (fail-safe). -/
def verifyFinancialContent (oracle : ClassifierOracle) (content : String) : Bool :=
  match oracle.verify content with
  | some reply => reply = "FINANCIAL"
  | none => false

/-- `checkFinancialContent(content)`: keyword short-circuit, then the
classifier, then the strict-mode second pass for borderline cases; a
primary-call failure falls back to the keyword check.  The second
component counts classifier calls issued. -/
def checkFinancialContent (strictMode : Bool) (oracle : ClassifierOracle)
    (content : String) : Bool × Nat :=
  if hasFinancialKeywords content then (true, 0)
  else
    match oracle.primary content with
    | none => (hasFinancialKeywords content, 1)
    | some reply =>
      let isFinancial := reply = "FINANCIAL"
      if isFinancial && strictMode && isBorderlineCase content then
        (verifyFinancialContent oracle content, 2)
      else (isFinancial, 1)

mutual
/-- JS `String(v)` coercion, used by `Array.prototype.join`. -/
def jsStringCoerce : JsValue → String
  | .null => "null"
  | .bool b => if b then "true" else "false"
  | .num n => toString n
  | .str s => s
  | .arr xs => jsArrToString xs
  | .obj _ => "[object Object]"

/-- JS `Array.prototype.toString` (elements joined with commas). -/
def jsArrToString : JsArray → String
  | .nil => ""
  | .cons v t =>
    jsStringCoerce v ++ (match t with | .nil => "" | .cons _ _ => ",") ++ jsArrToString t
end

/-- `extractContentForClassification(body)`.  The function may return a
non-string JS value (a truthy non-string `prompt` or `input`), on which
the caller's `.trim()` raises a `TypeError`; that case is `none`. -/
def extractContentForClassification (body : JsValue) : Option String :=
  if !jsTruthy body then some ""
  else
    match jsGet body "messages" with
    | some (.arr msgs) =>
      some (String.intercalate " " (messageContents msgs))
    | _ =>
      match jsGet body "prompt" with
      | some p =>
        if jsTruthy p then (match p with | .str s => some s | _ => none)
        else extractFromInput body
      | none => extractFromInput body
where
  /-- `msg.content || ''` for each message, as joined by `join(' ')`. -/
  messageContents : JsArray → List String
    | .nil => []
    | .cons m t =>
      (match jsGet m "content" with
       | some c => if jsTruthy c then jsStringCoerce c else ""
       | none => "") :: messageContents t
  /-- The `body.input` branch and the `JSON.stringify` fallback. -/
  extractFromInput (body : JsValue) : Option String :=
    match jsGet body "input" with
    | some i =>
      if jsTruthy i then (match i with | .str s => some s | _ => none)
      else some (jsStringify body)
    | none => some (jsStringify body)

/-- `shouldBlockFinancialContent(body)`: trim, skip short and long
contents and the disabled case, otherwise classify.  The result's second
component counts classifier calls issued; `none` is the `TypeError`
raised by `.trim()` when the extraction returned a non-string. -/
def shouldBlockFinancialContent (policyEnabled strictMode : Bool)
    (oracle : ClassifierOracle) (body : JsValue) : Option (Bool × Nat) :=
  match extractContentForClassification body with
  | none => none
  | some content =>
    let trimmedContent := jsTrim content
    some <|
      if trimmedContent = "" ∨ trimmedContent.length < 10 then (false, 0)
      else if policyEnabled = false then (false, 0)
      else if 1000 < trimmedContent.length then (false, 0)
      else checkFinancialContent strictMode oracle trimmedContent

/-! ### DataSanitizationService (LLM detect-and-reject strategy)

The deployed strategy deep-clones the body, walks it, and asks the LLM
detector for each string leaf; any detection throws a
`SensitiveDataException` carrying the detected type names.  The detector
(together with its validation and fail-open error handling) is the
oracle `detect`, mapping a string leaf to its detected type names. -/

mutual
/-- `sanitizeRecursive` on a value: `.error` is the thrown
`SensitiveDataException`, `.ok` the rebuilt (identical) tree. -/
def sanitizeValue (detect : String → List String) :
    JsValue → Except (List String) JsValue
  | .str s =>
    if s = "" then .ok (.str s)
    else
      match detect s with
      | [] => .ok (.str s)
      | types => .error types
  | .arr xs => do .ok (.arr (← sanitizeArray detect xs))
  | .obj fs => do .ok (.obj (← sanitizeObject detect fs))
  | v => .ok v

/-- `sanitizeRecursive` over an array, in element order. -/
def sanitizeArray (detect : String → List String) :
    JsArray → Except (List String) JsArray
  | .nil => .ok .nil
  | .cons v t => do .ok (.cons (← sanitizeValue detect v) (← sanitizeArray detect t))

/-- `sanitizeRecursive` over an object's fields, in field order; keys are
never inspected. -/
def sanitizeObject (detect : String → List String) :
    JsObject → Except (List String) JsObject
  | .nil => .ok .nil
  | .cons k v t => do .ok (.cons k (← sanitizeValue detect v) (← sanitizeObject detect t))
end

/-- `DataSanitizationService.sanitizeData(data)`. -/
def sanitizeData (detect : String → List String) (data : JsValue) :
    Except (List String) JsValue :=
  if !jsTruthy data then .ok data
  else sanitizeValue detect data

/-! ### ProxyService.forwardRequest (the pipeline)

All asynchronous collaborators are oracles in `ProxyEnv`; the result
records the audit log calls, broadcast events, upstream invocations and
classifier calls the run performs, plus the terminal outcome. -/

/-- The `RequestAction` enum of the audit log. -/
inductive RequestAction where
  | PROXIED
  | BLOCKED_TIME
  | BLOCKED_FINANCIAL
  | BLOCKED_RATE_LIMIT
  | BLOCKED_SENSITIVE_DATA
  | SERVED_FROM_CACHE
deriving DecidableEq, Repr

/-- One `LoggingService.logRequest` call: the audit record it persists.
`anonymizedPayload` is `JSON.stringify` of the value passed. -/
structure LogRecord where
  provider : String
  anonymizedPayload : String
  action : RequestAction
  endpoint : String
  errorMessage : Option String
deriving DecidableEq, Repr

/-- A response obtained from the upstream client. -/
structure UpstreamResponse where
  status : Nat
  data : String
deriving DecidableEq, Repr

/-- The environment of one `forwardRequest` run: feature flags and the
results its collaborators would produce for this request. -/
structure ProxyEnv where
  enableRateLimiting : Bool
  enableTimeBlocking : Bool
  enableSanitization : Bool
  enableCaching : Bool
  enablePolicyEnforcement : Bool
  strictMode : Bool
  hasReq : Bool
  rateAllowed : Bool
  currentSeconds : Nat
  detect : String → List String
  oracle : ClassifierOracle
  cached : Option CachedResponse
  upstream : Except String UpstreamResponse

/-- `shouldBlockByTime()`: flag plus second-of-minute in `{1, 2, 7, 8}`. -/
def shouldBlockByTime (env : ProxyEnv) : Bool :=
  env.enableTimeBlocking && [1, 2, 7, 8].contains env.currentSeconds

/-- The shared endpoint guard of sanitisation, policy, and caching. -/
def isGuardedEndpoint (path : String) : Bool :=
  strContains path "/chat/completions" || strContains path "/messages"

/-- `shouldSanitizeEndpoint(path)`. -/
def shouldSanitizeEndpoint (env : ProxyEnv) (path : String) : Bool :=
  env.enableSanitization && isGuardedEndpoint path

/-- `shouldEnforcePolicy(path)`. -/
def shouldEnforcePolicy (env : ProxyEnv) (path : String) : Bool :=
  env.enablePolicyEnforcement && isGuardedEndpoint path

/-- `shouldUseCache(path)`. -/
def shouldUseCache (env : ProxyEnv) (path : String) : Bool :=
  env.enableCaching && isGuardedEndpoint path

/-- How a `forwardRequest` run terminates: a response written to `res`,
or an exception propagated to the global filter. -/
inductive ProxyOutcome where
  | sent (status : Nat) (data : String)
  | threwRateLimited
  | threwTimeBlocked
  | threwSensitiveData (types : List String)
  | threwFinancial
  | threwInternalError
deriving DecidableEq, Repr

/-- Observable effects and terminal state of one `forwardRequest` run. -/
structure ProxyResult where
  logs : List LogRecord
  events : Nat
  upstreamCalls : Nat
  classifierCalls : Nat
  outcome : ProxyOutcome
  action : RequestAction
deriving DecidableEq, Repr

/-- State of the `try` body when control reaches the `finally` block. -/
structure ProxyCore where
  logs : List LogRecord
  events : Nat
  upstreamCalls : Nat
  classifierCalls : Nat
  outcome : ProxyOutcome
  action : RequestAction
  sanitizedVar : JsValue
  errorMessage : Option String

/-- Convenience constructor for a `logRequest` call. -/
def mkLog (provider : String) (payload : JsValue) (action : RequestAction)
    (endpoint : String) (errorMessage : Option String) : LogRecord :=
  { provider := provider, anonymizedPayload := jsStringify payload,
    action := action, endpoint := endpoint, errorMessage := errorMessage }

/-- The `try`/`catch` body of `forwardRequest`, phases 1–6. -/
def forwardCore (env : ProxyEnv) (provider method path : String) (body : JsValue) :
    ProxyCore :=
  -- Phase 1: rate limiting
  if env.hasReq && env.enableRateLimiting && !env.rateAllowed then
    { logs := [mkLog provider body .BLOCKED_RATE_LIMIT path
        (some "Request blocked due to rate limiting")],
      events := 1, upstreamCalls := 0, classifierCalls := 0,
      outcome := .threwRateLimited, action := .BLOCKED_RATE_LIMIT,
      sanitizedVar := body, errorMessage := some "Request blocked due to rate limiting" }
  -- Phase 2: time-based blocking
  else if shouldBlockByTime env then
    { logs := [mkLog provider body .BLOCKED_TIME path
        (some "Request blocked due to time-based policy")],
      events := 1, upstreamCalls := 0, classifierCalls := 0,
      outcome := .threwTimeBlocked, action := .BLOCKED_TIME,
      sanitizedVar := body, errorMessage := some "Request blocked due to time-based policy" }
  else
    -- Phase 3: data sanitisation for guarded endpoints
    match (if shouldSanitizeEndpoint env path then sanitizeData env.detect body
           else .ok body) with
    | .error types =>
      { logs := [mkLog provider body .BLOCKED_SENSITIVE_DATA path
          (some "Request blocked due to sensitive data detection")],
        events := 1, upstreamCalls := 0, classifierCalls := 0,
        outcome := .threwSensitiveData types, action := .BLOCKED_SENSITIVE_DATA,
        sanitizedVar := body,
        errorMessage := some "Request blocked due to sensitive data detection" }
    | .ok sanitizedBody =>
      -- Phase 4: policy enforcement for guarded endpoints
      match (if shouldEnforcePolicy env path then
               some (shouldBlockFinancialContent env.enablePolicyEnforcement
                 env.strictMode env.oracle sanitizedBody)
             else none) with
      | some none =>
        -- TypeError from `.trim()`, caught by the catch-all
        { logs := [], events := 0, upstreamCalls := 0, classifierCalls := 0,
          outcome := .threwInternalError, action := .PROXIED,
          sanitizedVar := sanitizedBody,
          errorMessage := some "content.trim is not a function" }
      | some (some (true, calls)) =>
        { logs := [mkLog provider sanitizedBody .BLOCKED_FINANCIAL path
            (some "Request blocked due to financial content policy")],
          events := 1, upstreamCalls := 0, classifierCalls := calls,
          outcome := .threwFinancial, action := .BLOCKED_FINANCIAL,
          sanitizedVar := sanitizedBody,
          errorMessage := some "Request blocked due to financial content policy" }
      | some (some (false, calls)) =>
        forwardAfterPolicy env provider method path sanitizedBody calls
      | none =>
        forwardAfterPolicy env provider method path sanitizedBody 0
where
  /-- Phases 5 and 6: cache lookup, then upstream dispatch. -/
  forwardAfterPolicy (env : ProxyEnv) (provider _method path : String)
      (sanitizedBody : JsValue) (calls : Nat) : ProxyCore :=
    match (if shouldUseCache env path then env.cached else none) with
    | some cachedResponse =>
      { logs := [mkLog provider sanitizedBody .SERVED_FROM_CACHE path none],
        events := 1, upstreamCalls := 0, classifierCalls := calls,
        outcome := .sent cachedResponse.status cachedResponse.data,
        action := .SERVED_FROM_CACHE,
        sanitizedVar := sanitizedBody, errorMessage := none }
    | none =>
      match env.upstream with
      | .error cause =>
        { logs := [], events := 0, upstreamCalls := 1, classifierCalls := calls,
          outcome := .threwInternalError, action := .PROXIED,
          sanitizedVar := sanitizedBody, errorMessage := some cause }
      | .ok response =>
        { logs := [], events := 1, upstreamCalls := 1, classifierCalls := calls,
          outcome := .sent response.status response.data, action := .PROXIED,
          sanitizedVar := sanitizedBody, errorMessage := none }

/-- The actions whose branches have already logged when `finally` runs. -/
def blockedActions : List RequestAction :=
  [.BLOCKED_TIME, .BLOCKED_FINANCIAL, .BLOCKED_RATE_LIMIT, .BLOCKED_SENSITIVE_DATA]

/-- `ProxyService.forwardRequest`: the `try` body followed by the
`finally` block, which logs `sanitizedBody || body` unless the action is
one of the blocked ones. -/
def forwardRequest (env : ProxyEnv) (provider method path : String)
    (body : JsValue) : ProxyResult :=
  let c := forwardCore env provider method path body
  let logs :=
    if blockedActions.contains c.action then c.logs
    else c.logs ++ [mkLog provider
      (if jsTruthy c.sanitizedVar then c.sanitizedVar else body)
      c.action path c.errorMessage]
  { logs := logs, events := c.events, upstreamCalls := c.upstreamCalls,
    classifierCalls := c.classifierCalls, outcome := c.outcome, action := c.action }

/-! ### Exceptions and the GlobalExceptionFilter

Each exception class is embedded as the HTTP status it carries, the JS
value its `getResponse()` returns, and the `message` property Nest
derives for it.  The filter is a pure function of these plus the request
path and method. -/

/-- What the filter can catch: a Nest `HttpException`, a plain JS
`Error`, or any other thrown value. -/
inductive CaughtException where
  | http (status : Nat) (response : JsValue) (message : String)
  | jsError (message : String)
  | nonError
deriving DecidableEq

/-- `new RateLimitedException()`: note its response's `error` field is a
plain string, not an object. -/
def rateLimitedException : CaughtException :=
  .http 429
    (.obj (mkObj [("error", .str "Rate Limited"),
                  ("message", .str "Rate limit exceeded"),
                  ("statusCode", .num 429)]))
    "Rate limit exceeded"

/-- The default message of `TimeBlockedException`. -/
def timeBlockedMessage : String :=
  "This request was blocked due to a time-based security policy. Please try again in a few seconds."

/-- `new TimeBlockedException()` (with `current_time` rendered as `ts`). -/
def timeBlockedException (ts : String) : CaughtException :=
  .http 403
    (.obj (mkObj [("error", .obj (mkObj
      [("message", .str timeBlockedMessage),
       ("code", .str "TIME_BLOCKED"),
       ("details", .obj (mkObj
         [("reason", .str "Time-based security policy"),
          ("suggestion", .str "Wait a few seconds and try again"),
          ("blocked_seconds", .arr (mkArr [.num 1, .num 2, .num 7, .num 8])),
          ("current_time", .str ts)]))]))]))
    "Time Blocked Exception"

/-- The default message of `SensitiveDataException`. -/
def sensitiveDataMessage (detectedTypes : List String) : String :=
  "Your request contains sensitive data that is not allowed: " ++
    String.intercalate ", " detectedTypes ++
    ". For security reasons, this type of content is blocked. Please remove any sensitive information such as email addresses, IBAN numbers, IP addresses, or other personal identifiers from your request."

/-- `new SensitiveDataException(detectedTypes)`. -/
def sensitiveDataException (detectedTypes : List String) : CaughtException :=
  .http 403
    (.obj (mkObj [("error", .obj (mkObj
      [("message", .str (sensitiveDataMessage detectedTypes)),
       ("code", .str "SENSITIVE_DATA_BLOCKED"),
       ("details", .obj (mkObj
         [("detected_types", .arr (mkArr (detectedTypes.map JsValue.str))),
          ("suggestion", .str "Remove all sensitive data from your request before resubmitting."),
          ("blocked_data_types", .arr (mkArr
            ([ "Email addresses", "IBAN numbers", "IP addresses", "Credit card numbers",
               "Social security numbers", "Phone numbers",
               "Personal identifiers" ].map JsValue.str))),
          ("allowed_content", .arr (mkArr
            ([ "General text and content", "Non-personal information", "Public data",
               "Anonymized content" ].map JsValue.str)))]))]))]))
    (sensitiveDataMessage detectedTypes)

/-- The default message of `FinancialContentException`. -/
def financialContentMessage : String :=
  "Your request contains content that appears to be related to financial services, transactions, or financial advice. For security reasons, this type of content is not allowed. Please modify your request to avoid financial topics such as banking, loans, investments, insurance, cryptocurrency, or tax-related content."

/-- `new FinancialContentException()`. -/
def financialContentException : CaughtException :=
  .http 403
    (.obj (mkObj [("error", .obj (mkObj
      [("message", .str financialContentMessage),
       ("code", .str "FINANCIAL_BLOCKED"),
       ("details", .obj (mkObj
         [("suggestion", .str "Try rephrasing your request to avoid financial terminology or specific financial services."),
          ("allowed_topics", .arr (mkArr
            ([ "General business discussions", "Technology and software",
               "Creative writing and content", "Educational topics",
               "General analysis and research" ].map JsValue.str))),
          ("blocked_topics", .arr (mkArr
            ([ "Personal banking transactions", "Loan or credit applications",
               "Investment advice or trading", "Insurance applications",
               "Cryptocurrency trading", "Tax preparation",
               "Payment processing" ].map JsValue.str)))]))]))]))
    financialContentMessage

/-- The `new HttpException('Proxy request failed', 500)` thrown by the
pipeline's catch-all: its response is the plain string. -/
def proxyFailedException : CaughtException :=
  .http 500 (.str "Proxy request failed") "Proxy request failed"

/-- JS `x || fallback` where `x` is a property access expected to hold a
string. -/
def jsOrString (x : Option JsValue) (fallback : String) : String :=
  match x with
  | some v => if jsTruthy v then jsStringCoerce v else fallback
  | none => fallback

/-- `makeMessageGraceful(message)`. -/
def makeMessageGraceful (message : String) : String :=
  if message = "Request blocked due to financial content policy" then
    "Your request contains content that appears to be related to financial services, transactions, or financial advice. For security reasons, this type of content is not allowed. Please modify your request to avoid financial topics such as banking, loans, investments, insurance, cryptocurrency, or tax-related content."
  else if message = "Request blocked due to time-based policy" then
    "This request was blocked due to a time-based security policy. Please try again in a few seconds."
  else if message = "Proxy request failed" then
    "The proxy service encountered an error while processing your request. Please check that your API keys are configured correctly and try again."
  else if message = "Internal server error" then
    "The Lasso proxy service encountered an unexpected error. Please try again later or contact support if the problem persists."
  else message

/-- The error document written by the filter: always of the shape
`{ error: { message, code, timestamp, path, method, details? } }`. -/
structure FilterOutput where
  status : Nat
  message : String
  code : String
  path : String
  method : String
  details : Option JsValue
deriving DecidableEq

/-- The status/message/code/details computed by the filter's branches. -/
def filterFields (exception : CaughtException) : Nat × String × String × Option JsValue :=
  match exception with
  | .http s response msg =>
    match jsGet response "error" with
    | some errv =>
      if jsTruthy errv then
        (s, jsOrString (jsGet errv "message") msg,
         jsOrString (jsGet errv "code") "HTTP_ERROR",
         match jsGet errv "details" with
         | some d => if jsTruthy d then some d else none
         | none => none)
      else (s, msg, "HTTP_ERROR", none)
    | none => (s, msg, "HTTP_ERROR", none)
  | .jsError msg => (500, msg, "ERROR", none)
  | .nonError => (500, "Internal server error", "INTERNAL_ERROR", none)

/-- `GlobalExceptionFilter.catch`. -/
def filterCatch (exception : CaughtException) (path method : String) : FilterOutput :=
  { status := (filterFields exception).1,
    message := makeMessageGraceful (filterFields exception).2.1,
    code := (filterFields exception).2.2.1,
    path := path, method := method,
    details := (filterFields exception).2.2.2 }

/-! ## Theorems -/

/-! ### C10: cache-key truncation collisions -/

/-- The first `4 * k` base64 characters depend only on the first `3 * k`
input bytes. -/
theorem base64Encode_take (k : Nat) :
    ∀ x y : List Nat, x.take (3 * k) = y.take (3 * k) →
      (base64Encode x).take (4 * k) = (base64Encode y).take (4 * k) := by
  induction k with
  | zero => intro x y _; simp
  | succ k ih =>
    intro x y h
    have h3 : 3 * (k + 1) = 3 * k + 1 + 1 + 1 := by ring
    have h4 : 4 * (k + 1) = 4 * k + 1 + 1 + 1 + 1 := by ring
    rw [h3] at h
    rw [h4]
    match x, y, h with
    | [], [], _ => rfl
    | [], _ :: _, h => simp at h
    | _ :: _, [], h => simp at h
    | [a], [b], h => simp_all
    | [a], _ :: _ :: _, h => simp [List.take_succ_cons] at h
    | _ :: _ :: _, [b], h => simp [List.take_succ_cons] at h
    | [a, a'], [b, b'], h => simp_all
    | [a, a'], _ :: _ :: _ :: _, h => simp [List.take_succ_cons] at h
    | _ :: _ :: _ :: _, [b, b'], h => simp [List.take_succ_cons] at h
    | a1 :: a2 :: a3 :: xr, b1 :: b2 :: b3 :: yr, h =>
      simp only [List.take_succ_cons, List.cons.injEq] at h
      obtain ⟨rfl, rfl, rfl, htail⟩ := h
      simp only [base64Encode, List.take_succ_cons, List.cons.injEq, true_and]
      exact ih xr yr htail

/-- C10: `generateCacheKey` depends only on the provider, the path, and
the first 24 bytes (32 base64 characters) of the serialised sanitised
body, so bodies agreeing on those 24 bytes share a cache key. -/
theorem generateCacheKey_collision (provider path : String) (b1 b2 : JsValue)
    (h : (utf8Encode (jsStringify b1)).take 24 = (utf8Encode (jsStringify b2)).take 24) :
    generateCacheKey provider path b1 = generateCacheKey provider path b2 := by
  have h32 := base64Encode_take 8 (utf8Encode (jsStringify b1))
    (utf8Encode (jsStringify b2)) h
  simp only [generateCacheKey]
  rw [show (32 : Nat) = 4 * 8 from rfl, h32]

/-- Witness for C10: two distinct bodies whose serialisations agree on
their first 24 bytes receive the same cache key. -/
theorem generateCacheKey_collision_witness :
    (JsValue.str "AAAAAAAAAAAAAAAAAAAAAAAAAAAAAA" ≠ JsValue.str "AAAAAAAAAAAAAAAAAAAAAAAAAAAAAB") ∧
    generateCacheKey "openai" "/v1/chat/completions" (.str "AAAAAAAAAAAAAAAAAAAAAAAAAAAAAA") =
      generateCacheKey "openai" "/v1/chat/completions" (.str "AAAAAAAAAAAAAAAAAAAAAAAAAAAAAB") :=
  ⟨by decide, generateCacheKey_collision "openai" "/v1/chat/completions"
    (.str "AAAAAAAAAAAAAAAAAAAAAAAAAAAAAA") (.str "AAAAAAAAAAAAAAAAAAAAAAAAAAAAAB") (by decide)⟩

/-! ### C9: cache hit/miss accounting -/

/-- The counter identity maintained by `CacheService`. -/
def StatsInv (s : CacheStats) : Prop := s.hits + s.misses = s.totalRequests

/-- Each operation preserves the counter identity. -/
theorem statsInv_step (cs : CacheState) (op : CacheOp) (h : StatsInv cs.stats) :
    StatsInv (cacheStep cs op).stats := by
  cases op with
  | get key now fail =>
    simp only [StatsInv, cacheStep, cacheGet] at *
    split
    · simpa using by omega
    · cases backendLookup cs.backend key now <;> simp <;> omega
  | set key v ttl now fail =>
    simp only [StatsInv, cacheStep, cacheSet] at *
    split <;> simpa
  | resetStats => simp [StatsInv, cacheStep, cacheResetStats]

/-- The identity holds after any run from the initial state. -/
theorem statsInv_run (ops : List CacheOp) : StatsInv (cacheRun ops).stats := by
  suffices h : ∀ cs, StatsInv cs.stats → StatsInv (ops.foldl cacheStep cs).stats by
    exact h cacheInit (by simp [StatsInv, cacheInit])
  induction ops with
  | nil => intro cs h; simpa
  | cons op rest ih => intro cs h; exact ih _ (statsInv_step cs op h)

/-- C9: a `get` counts the request and increments `hits` exactly when it
returns the stored, unexpired entry, `misses` otherwise (backend errors
and absent or expired keys included); consequently, after every sequence
of `get`/`set`/`resetStats` operations, `hits + misses = total_requests`
and the hit rate lies in `[0, 1]`, equalling `0` when no requests were
counted. -/
theorem cacheService_stats_ok :
    (∀ (cs : CacheState) (key : String) (now : Int) (fail : Bool),
      let r := cacheGet cs key now fail
      r.2.stats.totalRequests = cs.stats.totalRequests + 1 ∧
      (∀ v, r.1 = some v →
        backendLookup cs.backend key now = some v ∧
        r.2.stats.hits = cs.stats.hits + 1 ∧ r.2.stats.misses = cs.stats.misses) ∧
      (r.1 = none →
        r.2.stats.misses = cs.stats.misses + 1 ∧ r.2.stats.hits = cs.stats.hits)) ∧
    (∀ ops : List CacheOp,
      (cacheRun ops).stats.hits + (cacheRun ops).stats.misses =
        (cacheRun ops).stats.totalRequests ∧
      0 ≤ getHitRate (cacheRun ops).stats ∧ getHitRate (cacheRun ops).stats ≤ 1 ∧
      ((cacheRun ops).stats.totalRequests = 0 → getHitRate (cacheRun ops).stats = 0)) := by
  constructor
  · intro cs key now fail
    simp only [cacheGet]
    split
    · simp
    · cases hb : backendLookup cs.backend key now <;> simp_all
  · intro ops
    have hinv := statsInv_run ops
    unfold StatsInv at hinv
    refine ⟨hinv, ?_, ?_, ?_⟩
    · unfold getHitRate
      split
      · rfl
      · positivity
    · unfold getHitRate
      split
      · norm_num
      · rename_i htot
        have hle : (cacheRun ops).stats.hits ≤ (cacheRun ops).stats.totalRequests := by omega
        have hpos : (0 : ℚ) < ((cacheRun ops).stats.totalRequests : ℚ) := by
          exact_mod_cast Nat.pos_of_ne_zero htot
        rw [div_le_one hpos]
        exact_mod_cast hle
    · intro h0
      simp [getHitRate, h0]

/-! ### C3: the lazy-refill amount -/

/-- Modelled from the spec: the refill amount the claim asserts,
`add = floor(elapsed / refill_interval_ms) * refill_rate`. -/
def claimedRefillAmount (cfg : RLConfig) (elapsed : Int) : Int :=
  Int.fdiv elapsed cfg.refillInterval * cfg.refillRate

/-- A store holding one bucket with no tokens, last refilled at 0. -/
def c3Store : RLStore := rlSet (fun _ => none) "client" { tokens := 0, lastRefill := 0 }

/-- Counterexample to C3: half an interval after the last refill
(`elapsed = 500`, `refill_interval_ms = 1000`, `refill_rate = 10`) the
claimed amount is `floor(500/1000)*10 = 0`, but the code computes
`floor((500/1000)*10) = 5`: `isAllowed` adds 5 tokens and advances
`last_refill` where the claim says nothing is added. -/
theorem refillAmount_differs_from_claim :
    refillAmount { maxTokens := 100, refillRate := 10, refillInterval := 1000 } 500 = 5 ∧
    claimedRefillAmount { maxTokens := 100, refillRate := 10, refillInterval := 1000 } 500 = 0 ∧
    (isAllowed { maxTokens := 100, refillRate := 10, refillInterval := 1000 }
        c3Store 500 "client" 0).2 "client" =
      some { tokens := 5, lastRefill := 500 } := by
  refine ⟨by decide, by decide, ?_⟩
  simp [isAllowed, c3Store, rlSet, refillBucket, refillAmount]

/-- Modelled from the spec §4.3 `try_consume`, with the refill amount
amended to `floor(elapsed * refill_rate / refill_interval_ms)`:
look up or initialise the bucket, refill (capping at `max_tokens` and
advancing `last_refill` exactly when the amount is positive), then
consume when enough tokens remain. -/
def tryConsumeAmended (cfg : RLConfig) (bucket : RateLimitInfo) (now cost : Int) :
    Bool × RateLimitInfo :=
  let elapsed := now - bucket.lastRefill
  let add := Int.fdiv (elapsed * cfg.refillRate) cfg.refillInterval
  let bucket :=
    if 0 < add then
      { tokens := min cfg.maxTokens (bucket.tokens + add), lastRefill := now }
    else bucket
  if cost ≤ bucket.tokens then
    (true, { tokens := bucket.tokens - cost, lastRefill := bucket.lastRefill })
  else (false, bucket)

/-- C3 (amended): `isAllowed` implements the spec's `try_consume` with
the refill amount `floor(elapsed * refill_rate / refill_interval_ms)`:
the decision and the stored bucket agree with the amended specification
applied to the looked-up (or freshly initialised) bucket. -/
theorem isAllowed_matches_amended_spec (cfg : RLConfig) (st : RLStore) (now : Int)
    (ip : String) (cost : Int) :
    (isAllowed cfg st now ip cost).1 =
      (tryConsumeAmended cfg ((st ip).getD { tokens := cfg.maxTokens, lastRefill := now })
        now cost).1 ∧
    (isAllowed cfg st now ip cost).2 ip =
      some (tryConsumeAmended cfg ((st ip).getD { tokens := cfg.maxTokens, lastRefill := now })
        now cost).2 := by
  simp only [isAllowed, tryConsumeAmended, refillBucket, refillAmount, rlSet]
  split <;> split <;> simp [rlSet]

/-! ### C6: token-bucket invariants -/

/-- The refill step keeps the bounds, keeps `lastRefill` at or below
`now`, and never moves `lastRefill` backwards. -/
theorem refillBucket_preserves (cfg : RLConfig) (now : Int) (b : RateLimitInfo)
    (h0 : 0 ≤ b.tokens) (h1 : b.tokens ≤ cfg.maxTokens) (h2 : b.lastRefill ≤ now) :
    0 ≤ (refillBucket cfg now b).tokens ∧
    (refillBucket cfg now b).tokens ≤ cfg.maxTokens ∧
    (refillBucket cfg now b).lastRefill ≤ now ∧
    b.lastRefill ≤ (refillBucket cfg now b).lastRefill := by
  by_cases hadd : 0 < ((now - b.lastRefill) * cfg.refillRate).fdiv cfg.refillInterval
  · simp only [refillBucket, refillAmount, if_pos hadd]
    refine ⟨?_, ?_, le_refl _, h2⟩ <;> rw [min_def] <;> split <;> omega
  · simp only [refillBucket, refillAmount, if_neg hadd]
    exact ⟨h0, h1, h2, le_refl _⟩

/-- `isAllowed` preserves the bucket bounds, advancing the clock bound
from `t` to `now`. -/
theorem isAllowed_preserves (cfg : RLConfig) (hmax : 0 ≤ cfg.maxTokens)
    {t now cost : Int} (htn : t ≤ now) (hcost : 0 ≤ cost) (st : RLStore) (ip : String)
    (hst : BucketsOK cfg t st) : BucketsOK cfg now (isAllowed cfg st now ip cost).2 := by
  have hb0 : 0 ≤ ((st ip).getD { tokens := cfg.maxTokens, lastRefill := now }).tokens ∧
      ((st ip).getD { tokens := cfg.maxTokens, lastRefill := now }).tokens ≤ cfg.maxTokens ∧
      ((st ip).getD { tokens := cfg.maxTokens, lastRefill := now }).lastRefill ≤ now := by
    cases hs : st ip with
    | none => simp only [hs, Option.getD_none]; exact ⟨hmax, le_refl _, le_refl _⟩
    | some b =>
      obtain ⟨g0, g1, g2⟩ := hst ip b hs
      simp only [hs, Option.getD_some]
      exact ⟨g0, g1, le_trans g2 htn⟩
  obtain ⟨r0, r1, r2, _⟩ := refillBucket_preserves cfg now _ hb0.1 hb0.2.1 hb0.2.2
  intro j b hj
  simp only [isAllowed, rlSet] at hj
  split at hj <;> simp only [rlSet] at hj <;> split at hj <;>
    first
      | (cases hj
         refine ⟨?_, ?_, ?_⟩ <;> dsimp only <;> omega)
      | (obtain ⟨g0, g1, g2⟩ := hst j b hj; exact ⟨g0, g1, le_trans g2 htn⟩)

/-- `cleanup` preserves the bucket bounds, advancing the clock bound. -/
theorem rlCleanup_preserves (cfg : RLConfig) {t now : Int} (htn : t ≤ now)
    (st : RLStore) (hst : BucketsOK cfg t st) :
    BucketsOK cfg now (rlCleanup st now) := by
  intro j b hj
  simp only [rlCleanup] at hj
  cases hs : st j with
  | none => simp only [hs] at hj; exact Option.noConfusion hj
  | some b0 =>
    simp only [hs] at hj
    split at hj
    · exact Option.noConfusion hj
    · injection hj with hbb
      subst hbb
      obtain ⟨g0, g1, g2⟩ := hst j _ hs
      exact ⟨g0, g1, le_trans g2 htn⟩

/-- Weakening the clock bound. -/
theorem bucketsOK_mono (cfg : RLConfig) {t t' : Int} (h : t ≤ t') {st : RLStore}
    (hst : BucketsOK cfg t st) : BucketsOK cfg t' st :=
  fun j b hj => ⟨(hst j b hj).1, (hst j b hj).2.1, le_trans (hst j b hj).2.2 h⟩

/-- `reset` preserves the bucket bounds. -/
theorem rlDelete_preserves (cfg : RLConfig) {t : Int} (st : RLStore) (ip : String)
    (hst : BucketsOK cfg t st) : BucketsOK cfg t (rlDelete st ip) := by
  intro j b hj
  simp only [rlDelete] at hj
  split at hj
  · cases hj
  · exact hst j b hj

/-- The clock bound after a run (the last observed clock value). -/
def rlEndTime (t : Int) : List RLOp → Int
  | [] => t
  | .allow now _ _ :: rest => rlEndTime now rest
  | .status now _ :: rest => rlEndTime now rest
  | .reset _ :: rest => rlEndTime t rest
  | .cleanup now :: rest => rlEndTime now rest

/-- Any valid run preserves the bucket bounds. -/
theorem bucketsOK_run (cfg : RLConfig) (hmax : 0 ≤ cfg.maxTokens) :
    ∀ (ops : List RLOp) (t : Int) (st : RLStore), BucketsOK cfg t st →
      rlOpsValid t ops = true → BucketsOK cfg (rlEndTime t ops) (rlRun cfg st ops) := by
  intro ops
  induction ops with
  | nil => intro t st hst _; simpa [rlRun, rlEndTime] using hst
  | cons op rest ih =>
    intro t st hst hv
    cases op with
    | allow now ip cost =>
      simp only [rlOpsValid, Bool.and_eq_true, decide_eq_true_eq] at hv
      exact ih now _ (isAllowed_preserves cfg hmax hv.1.1 hv.1.2 st ip hst) hv.2
    | status now ip =>
      simp only [rlOpsValid, Bool.and_eq_true, decide_eq_true_eq] at hv
      exact ih now st (bucketsOK_mono cfg hv.1 hst) hv.2
    | reset ip =>
      simp only [rlOpsValid] at hv
      exact ih t _ (rlDelete_preserves cfg st ip hst) hv
    | cleanup now =>
      simp only [rlOpsValid, Bool.and_eq_true, decide_eq_true_eq] at hv
      exact ih now _ (rlCleanup_preserves cfg hv.1 st hst) hv.2

/-- A single valid operation never moves an identity's `lastRefill`
backwards. -/
theorem lastRefill_mono_step (cfg : RLConfig) {t : Int} (st : RLStore) (op : RLOp)
    (hst : BucketsOK cfg t st) (hv : rlOpsValid t [op] = true) (ip : String)
    (b b' : RateLimitInfo) (hb : st ip = some b) (hb' : rlStep cfg st op ip = some b') :
    b.lastRefill ≤ b'.lastRefill := by
  have hbt : b.lastRefill ≤ t := (hst ip b hb).2.2
  cases op with
  | allow now ip' cost =>
    simp only [rlOpsValid, Bool.and_eq_true, decide_eq_true_eq] at hv
    have htnow : t ≤ now := hv.1.1
    have h2 : b.lastRefill ≤ now := le_trans hbt htnow
    have hmono := (refillBucket_preserves cfg now b (hst ip b hb).1
      (hst ip b hb).2.1 h2).2.2.2
    simp only [rlStep, isAllowed, rlSet] at hb'
    split at hb' <;> simp only [rlSet] at hb' <;> split at hb' <;>
      first
        | (rename_i hii
           subst hii
           simp only [hb, Option.getD_some] at hb'
           cases hb'
           exact hmono)
        | (rw [hb] at hb'; cases hb'; exact le_refl _)
  | status now ip' =>
    simp only [rlStep] at hb'
    rw [hb] at hb'; cases hb'; exact le_refl _
  | reset ip' =>
    simp only [rlStep, rlDelete] at hb'
    split at hb'
    · cases hb'
    · rw [hb] at hb'; cases hb'; exact le_refl _
  | cleanup now =>
    simp only [rlStep, rlCleanup, hb] at hb'
    split at hb'
    · cases hb'
    · cases hb'; exact le_refl _

/-- Prefix validity and the validity of the remainder. -/
theorem rlOpsValid_append {t : Int} {pre suf : List RLOp}
    (h : rlOpsValid t (pre ++ suf) = true) :
    rlOpsValid t pre = true ∧ rlOpsValid (rlEndTime t pre) suf = true := by
  induction pre generalizing t with
  | nil => simpa [rlOpsValid, rlEndTime] using h
  | cons op rest ih =>
    cases op with
    | allow now ip cost =>
      simp only [List.cons_append, rlOpsValid, Bool.and_eq_true] at h ⊢
      exact ⟨⟨h.1, (ih h.2).1⟩, by simpa [rlEndTime] using (ih h.2).2⟩
    | status now ip =>
      simp only [List.cons_append, rlOpsValid, Bool.and_eq_true] at h ⊢
      exact ⟨⟨h.1, (ih h.2).1⟩, by simpa [rlEndTime] using (ih h.2).2⟩
    | reset ip =>
      simp only [List.cons_append, rlOpsValid] at h ⊢
      exact ⟨(ih h).1, by simpa [rlEndTime] using (ih h).2⟩
    | cleanup now =>
      simp only [List.cons_append, rlOpsValid, Bool.and_eq_true] at h ⊢
      exact ⟨⟨h.1, (ih h.2).1⟩, by simpa [rlEndTime] using (ih h.2).2⟩

/-- Validity of the head operation alone. -/
theorem rlOpsValid_single {t : Int} {op : RLOp} {rest : List RLOp}
    (h : rlOpsValid t (op :: rest) = true) : rlOpsValid t [op] = true := by
  cases op with
  | allow now ip cost =>
    simp only [rlOpsValid, Bool.and_eq_true] at h ⊢
    exact ⟨h.1, trivial⟩
  | status now ip =>
    simp only [rlOpsValid, Bool.and_eq_true] at h ⊢
    exact ⟨h.1, trivial⟩
  | reset ip => rfl
  | cleanup now =>
    simp only [rlOpsValid, Bool.and_eq_true] at h ⊢
    exact ⟨h.1, trivial⟩

/-- C6: under a monotone clock and non-negative costs, every identity's
bucket satisfies `0 ≤ tokens ≤ max_tokens` after every prefix of the run
(from the empty store), and no single operation ever decreases an
identity's `lastRefill`. -/
theorem rateLimiter_invariants (cfg : RLConfig) (hmax : 0 ≤ cfg.maxTokens)
    (t0 : Int) (ops : List RLOp) (hops : rlOpsValid t0 ops = true) :
    (∀ pre suf, ops = pre ++ suf →
      BucketsOK cfg (rlEndTime t0 pre) (rlRun cfg (fun _ => none) pre)) ∧
    (∀ pre op suf, ops = pre ++ op :: suf →
      ∀ ip b b', rlRun cfg (fun _ => none) pre ip = some b →
        rlStep cfg (rlRun cfg (fun _ => none) pre) op ip = some b' →
        b.lastRefill ≤ b'.lastRefill) := by
  have hempty : BucketsOK cfg t0 (fun _ => none) := by intro j b hj; cases hj
  constructor
  · intro pre suf hsplit
    subst hsplit
    exact bucketsOK_run cfg hmax pre t0 _ hempty (rlOpsValid_append hops).1
  · intro pre op suf hsplit ip b b' hb hb'
    subst hsplit
    have hpre := (rlOpsValid_append hops).1
    have hrest := (rlOpsValid_append hops).2
    have hok := bucketsOK_run cfg hmax pre t0 _ hempty hpre
    exact lastRefill_mono_step cfg _ op hok (rlOpsValid_single hrest) ip b b' hb hb'

/-- Default rate limiter configuration (100 tokens, 10/s, 1000 ms). -/
def c6cfg : RLConfig := { maxTokens := 100, refillRate := 10, refillInterval := 1000 }

/-- A concrete valid operation sequence for one identity. -/
def c6ops : List RLOp :=
  [.allow 0 "a" 10, .allow 100 "a" 10, .status 100 "a", .cleanup 200, .allow 1500 "a" 10]

/-- Witness for C6: on a concrete valid run, identity `a`'s bucket ends
within the invariant bounds. -/
theorem rateLimiter_invariants_witness :
    rlRun c6cfg (fun _ => none) c6ops "a" = some { tokens := 85, lastRefill := 1500 } ∧
    (0 : Int) ≤ 85 ∧ (85 : Int) ≤ c6cfg.maxTokens := by
  have h := (rateLimiter_invariants c6cfg (by decide) 0 c6ops (by decide)).1 c6ops []
    (by simp)
  have hb : rlRun c6cfg (fun _ => none) c6ops "a" =
      some { tokens := 85, lastRefill := 1500 } := by decide
  have hbounds := h "a" _ hb
  exact ⟨hb, hbounds.1, hbounds.2.1⟩

/-! ### C4: error codes and statuses -/

/-- Counterexample to C4: the rate-limit rejection does NOT carry the
code `BLOCKED_RATE_LIMIT`.  `RateLimitedException`'s response stores a
plain string under `error`, so the filter's `error.code` lookup comes
back undefined and falls back to `HTTP_ERROR` (status 429). -/
theorem rateLimit_code_is_http_error :
    (filterCatch rateLimitedException "/openai/v1/chat/completions" "POST").code =
      "HTTP_ERROR" ∧
    (filterCatch rateLimitedException "/openai/v1/chat/completions" "POST").status = 429 ∧
    (filterCatch rateLimitedException "/openai/v1/chat/completions" "POST").code ≠
      "BLOCKED_RATE_LIMIT" := by
  refine ⟨rfl, rfl, ?_⟩
  decide

/-- C4 (amended): every blocked or fatal case produces the filter's
fixed `{ error: { message, code, timestamp, path, method, ... } }`
document (path and method echo the request for every exception); the
code/status pairs are `TIME_BLOCKED`/403, `SENSITIVE_DATA_BLOCKED`/403
and `FINANCIAL_BLOCKED`/403 as claimed, but the rate-limit rejection
yields `HTTP_ERROR`/429 and the pipeline's fatal
`HttpException('Proxy request failed', 500)` yields `HTTP_ERROR`/500;
`INTERNAL_ERROR`/500 arises only for a throw that is neither an
`HttpException` nor an `Error`. -/
theorem errorResponse_codes (path method ts : String) (types : List String) :
    (∀ e : CaughtException, (filterCatch e path method).path = path ∧
      (filterCatch e path method).method = method) ∧
    (filterCatch (timeBlockedException ts) path method).status = 403 ∧
    (filterCatch (timeBlockedException ts) path method).code = "TIME_BLOCKED" ∧
    (filterCatch (sensitiveDataException types) path method).status = 403 ∧
    (filterCatch (sensitiveDataException types) path method).code = "SENSITIVE_DATA_BLOCKED" ∧
    (filterCatch financialContentException path method).status = 403 ∧
    (filterCatch financialContentException path method).code = "FINANCIAL_BLOCKED" ∧
    (filterCatch rateLimitedException path method).status = 429 ∧
    (filterCatch rateLimitedException path method).code = "HTTP_ERROR" ∧
    (filterCatch proxyFailedException path method).status = 500 ∧
    (filterCatch proxyFailedException path method).code = "HTTP_ERROR" ∧
    (filterCatch .nonError path method).status = 500 ∧
    (filterCatch .nonError path method).code = "INTERNAL_ERROR" :=
  ⟨fun _ => ⟨rfl, rfl⟩, rfl, rfl, rfl, rfl, rfl, rfl, rfl, rfl, rfl, rfl, rfl, rfl⟩

/-! ### C5: length gates of the policy stage -/

/-- An oracle whose primary pass classifies everything `FINANCIAL`. -/
def allFinancialOracle : ClassifierOracle :=
  { primary := fun _ => some "FINANCIAL", verify := fun _ => some "FINANCIAL" }

/-- A 1001-character content beginning with a financial keyword. -/
def c5content : String := "bank account" ++ String.mk (List.replicate 989 'z')

/-- A chat body carrying `c5content` as its single message content. -/
def c5body : JsValue :=
  .obj (mkObj [("messages", .arr (mkArr
    [.obj (mkObj [("role", .str "user"), ("content", .str c5content)])]))])

set_option maxRecDepth 100000 in
/-- Counterexample to C5: a 1001-character canonical text lies inside
the claimed pass-through range `[10, 2000]`, yet the stage skips it —
the code's upper gate is 1000, not 2000 — even though the
financial-content check would have blocked it. -/
theorem shouldBlock_skips_1001_chars :
    extractContentForClassification c5body = some c5content ∧
    (jsTrim c5content).length = 1001 ∧
    shouldBlockFinancialContent true true allFinancialOracle c5body = some (false, 0) ∧
    checkFinancialContent true allFinancialOracle (jsTrim c5content) = (true, 0) := by
  refine ⟨rfl, by decide, by decide, by decide⟩

/-- C5 (amended): with policy enforcement enabled, the stage returns
`false` with no classifier call when the trimmed canonical text is
shorter than 10 characters or longer than 1000 characters, and hands
texts of trimmed length in `[10, 1000]` to the financial-content
check. -/
theorem shouldBlock_length_gates (strict : Bool) (oracle : ClassifierOracle)
    (body : JsValue) (content : String)
    (hex : extractContentForClassification body = some content) :
    ((jsTrim content).length < 10 →
      shouldBlockFinancialContent true strict oracle body = some (false, 0)) ∧
    (1000 < (jsTrim content).length →
      shouldBlockFinancialContent true strict oracle body = some (false, 0)) ∧
    (10 ≤ (jsTrim content).length → (jsTrim content).length ≤ 1000 →
      shouldBlockFinancialContent true strict oracle body =
        some (checkFinancialContent strict oracle (jsTrim content))) := by
  have hne : ∀ n, 10 ≤ (jsTrim content).length → ¬(jsTrim content = "" ∨
      (jsTrim content).length < n) ∨ True := fun _ _ => Or.inr trivial
  refine ⟨?_, ?_, ?_⟩
  · intro h
    simp only [shouldBlockFinancialContent, hex]
    rw [if_pos (Or.inr h)]
  · intro h
    simp only [shouldBlockFinancialContent, hex]
    rw [if_neg, if_neg, if_pos h]
    · simp
    · intro hc
      rcases hc with hc | hc
      · rw [hc] at h; simp at h
      · omega
  · intro h10 h1000
    simp only [shouldBlockFinancialContent, hex]
    rw [if_neg, if_neg, if_neg]
    · omega
    · simp
    · intro hc
      rcases hc with hc | hc
      · rw [hc] at h10; simp at h10
      · omega

/-- A chat body whose canonical text has length 28 and carries a
financial keyword. -/
def bankBody : JsValue :=
  .obj (mkObj [("model", .str "m"),
    ("messages", .arr (mkArr
      [.obj (mkObj [("role", .str "user"),
                    ("content", .str "help me with my bank account")])]))])

/-- Witness for the amended C5: a 28-character text is handed to the
financial-content check, which blocks it by keyword. -/
theorem shouldBlock_length_gates_witness :
    shouldBlockFinancialContent true true allFinancialOracle bankBody = some (true, 0) := by
  have h := (shouldBlock_length_gates true allFinancialOracle bankBody
    "help me with my bank account" rfl).2.2 (by decide) (by decide)
  rw [h]
  decide

/-! ### C8: keyword short-circuit of the financial check -/

/-- A classifier oracle that answers `NON_FINANCIAL` everywhere: if the
keyword path short-circuits, the result cannot come from it. -/
def nonFinancialOracle : ClassifierOracle :=
  { primary := fun _ => some "NON_FINANCIAL", verify := fun _ => some "NON_FINANCIAL" }

/-- The environment of scenario 4: all features enabled, clock outside
the blocked seconds, nothing sensitive detected, cache cold. -/
def c8env : ProxyEnv :=
  { enableRateLimiting := true, enableTimeBlocking := true, enableSanitization := true,
    enableCaching := true, enablePolicyEnforcement := true, strictMode := true,
    hasReq := true, rateAllowed := true, currentSeconds := 30,
    detect := fun _ => [], oracle := nonFinancialOracle, cached := none,
    upstream := .ok { status := 200, data := "U" } }

/-- C8: a text containing a financial keyword makes
`checkFinancialContent` return `true` with zero classifier calls, and
the scenario-4 request (`"help me with my bank account"`) terminates
`BLOCKED_FINANCIAL` with a single audit record, no classifier call and
no upstream call. -/
theorem keyword_blocks_without_classifier :
    (∀ (strict : Bool) (oracle : ClassifierOracle) (content : String),
      hasFinancialKeywords content = true →
      checkFinancialContent strict oracle content = (true, 0)) ∧
    ((forwardRequest c8env "openai" "POST" "/v1/chat/completions" bankBody).action =
        .BLOCKED_FINANCIAL ∧
      (forwardRequest c8env "openai" "POST" "/v1/chat/completions" bankBody).classifierCalls = 0 ∧
      (forwardRequest c8env "openai" "POST" "/v1/chat/completions" bankBody).upstreamCalls = 0 ∧
      (forwardRequest c8env "openai" "POST" "/v1/chat/completions" bankBody).logs.map
        LogRecord.action = [.BLOCKED_FINANCIAL]) := by
  constructor
  · intro strict oracle content h
    simp [checkFinancialContent, h]
  · refine ⟨by decide, by decide, by decide, by decide⟩

/-- Witness for C8: the keyword clause applied to the scenario-4 text. -/
theorem keyword_blocks_without_classifier_witness :
    checkFinancialContent true nonFinancialOracle "help me with my bank account" = (true, 0) :=
  keyword_blocks_without_classifier.1 true nonFinancialOracle
    "help me with my bank account" (by decide)

/-! ### C7: side-effect containment -/

/-- In the `try` body, every run that does not end `PROXIED` performs no
upstream call. -/
theorem forwardCore_noUpstream (env : ProxyEnv) (provider method path : String)
    (body : JsValue) :
    (forwardCore env provider method path body).action ≠ .PROXIED →
    (forwardCore env provider method path body).upstreamCalls = 0 := by
  unfold forwardCore forwardCore.forwardAfterPolicy
  repeat' split
  all_goals intro h
  all_goals first
    | rfl
    | exact absurd rfl h

/-- C7: a request terminated by a blocking stage, or answered from the
cache, never invokes the upstream client. -/
theorem blocked_or_cached_skips_upstream (env : ProxyEnv)
    (provider method path : String) (body : JsValue)
    (h : (forwardRequest env provider method path body).action ∈ blockedActions ∨
      (forwardRequest env provider method path body).action = .SERVED_FROM_CACHE) :
    (forwardRequest env provider method path body).upstreamCalls = 0 := by
  have hcore : (forwardCore env provider method path body).action ≠ .PROXIED := by
    intro hP
    have hact : (forwardRequest env provider method path body).action =
        (forwardCore env provider method path body).action := rfl
    rcases h with h | h
    · rw [hact, hP] at h
      simp [blockedActions] at h
    · rw [hact, hP] at h
      cases h
  exact forwardCore_noUpstream env provider method path body hcore

/-- The scenario-2 environment: the clock frozen at second 7. -/
def c7env : ProxyEnv :=
  { enableRateLimiting := true, enableTimeBlocking := true, enableSanitization := true,
    enableCaching := true, enablePolicyEnforcement := true, strictMode := true,
    hasReq := true, rateAllowed := true, currentSeconds := 7,
    detect := fun _ => [], oracle := nonFinancialOracle, cached := none,
    upstream := .ok { status := 200, data := "U" } }

/-- Witness for C7: a time-blocked request makes no upstream call. -/
theorem blocked_or_cached_skips_upstream_witness :
    (forwardRequest c7env "openai" "GET" "/v1/models" .null).upstreamCalls = 0 :=
  blocked_or_cached_skips_upstream c7env "openai" "GET" "/v1/models" .null
    (Or.inl (by decide))

/-! ### C1: one audit record per request -/

/-- The scenario-5 environment on its second request: the fingerprint is
already cached. -/
def c1env : ProxyEnv :=
  { enableRateLimiting := true, enableTimeBlocking := true, enableSanitization := true,
    enableCaching := true, enablePolicyEnforcement := true, strictMode := true,
    hasReq := true, rateAllowed := true, currentSeconds := 30,
    detect := fun _ => [], oracle := nonFinancialOracle,
    cached := some { status := 200, data := "B" },
    upstream := .ok { status := 200, data := "U" } }

/-- A benign chat body (content too short for the policy stage). -/
def c1body : JsValue :=
  .obj (mkObj [("model", .str "m"),
    ("messages", .arr (mkArr
      [.obj (mkObj [("role", .str "user"), ("content", .str "Hi!")])]))])

/-- C1 fails on the code: a cache-served request produces TWO audit
records, both `SERVED_FROM_CACHE` — the cache branch logs once and the
`finally` block logs again, because its guard list omits
`SERVED_FROM_CACHE` despite its "if not already logged" comment. -/
theorem cache_hit_produces_two_records :
    (forwardRequest c1env "openai" "POST" "/v1/chat/completions" c1body).action =
      .SERVED_FROM_CACHE ∧
    (forwardRequest c1env "openai" "POST" "/v1/chat/completions" c1body).logs.map
      LogRecord.action = [.SERVED_FROM_CACHE, .SERVED_FROM_CACHE] ∧
    (forwardRequest c1env "openai" "POST" "/v1/chat/completions" c1body).logs.length = 2 := by
  refine ⟨by decide, by decide, by decide⟩

/-! ### C2: what the audit record persists -/

mutual
/-- Detect-and-reject sanitisation never rewrites a value it accepts. -/
theorem sanitizeValue_id (d : String → List String) (v r : JsValue)
    (h : sanitizeValue d v = .ok r) : r = v := by
  cases v with
  | null => simp only [sanitizeValue] at h; cases h; rfl
  | bool b => simp only [sanitizeValue] at h; cases h; rfl
  | num n => simp only [sanitizeValue] at h; cases h; rfl
  | str s =>
    simp only [sanitizeValue] at h
    split at h
    · cases h; rfl
    · split at h
      · cases h; rfl
      · exact Except.noConfusion h
  | arr xs =>
    have h' : Except.bind (sanitizeArray d xs)
        (fun ys => Except.ok (JsValue.arr ys)) = .ok r := h
    cases hys : sanitizeArray d xs with
    | error e => rw [hys] at h'; exact Except.noConfusion h'
    | ok ys =>
      rw [hys] at h'
      simp only [Except.bind] at h'
      cases h'
      rw [sanitizeArray_id d xs ys hys]
  | obj fs =>
    have h' : Except.bind (sanitizeObject d fs)
        (fun gs => Except.ok (JsValue.obj gs)) = .ok r := h
    cases hgs : sanitizeObject d fs with
    | error e => rw [hgs] at h'; exact Except.noConfusion h'
    | ok gs =>
      rw [hgs] at h'
      simp only [Except.bind] at h'
      cases h'
      rw [sanitizeObject_id d fs gs hgs]

/-- Array case of the sanitisation identity. -/
theorem sanitizeArray_id (d : String → List String) (xs ys : JsArray)
    (h : sanitizeArray d xs = .ok ys) : ys = xs := by
  cases xs with
  | nil => simp only [sanitizeArray] at h; cases h; rfl
  | cons v t =>
    have h' : Except.bind (sanitizeValue d v) (fun v' =>
        Except.bind (sanitizeArray d t) (fun t' =>
          Except.ok (JsArray.cons v' t'))) = .ok ys := h
    cases hv : sanitizeValue d v with
    | error e => rw [hv] at h'; exact Except.noConfusion h'
    | ok v' =>
      rw [hv] at h'
      simp only [Except.bind] at h'
      cases ht : sanitizeArray d t with
      | error e => rw [ht] at h'; exact Except.noConfusion h'
      | ok t' =>
        rw [ht] at h'
        cases h'
        rw [sanitizeValue_id d v v' hv, sanitizeArray_id d t t' ht]

/-- Object case of the sanitisation identity. -/
theorem sanitizeObject_id (d : String → List String) (fs gs : JsObject)
    (h : sanitizeObject d fs = .ok gs) : gs = fs := by
  cases fs with
  | nil => simp only [sanitizeObject] at h; cases h; rfl
  | cons k v t =>
    have h' : Except.bind (sanitizeValue d v) (fun v' =>
        Except.bind (sanitizeObject d t) (fun t' =>
          Except.ok (JsObject.cons k v' t'))) = .ok gs := h
    cases hv : sanitizeValue d v with
    | error e => rw [hv] at h'; exact Except.noConfusion h'
    | ok v' =>
      rw [hv] at h'
      simp only [Except.bind] at h'
      cases ht : sanitizeObject d t with
      | error e => rw [ht] at h'; exact Except.noConfusion h'
      | ok t' =>
        rw [ht] at h'
        cases h'
        rw [sanitizeValue_id d v v' hv, sanitizeObject_id d t t' ht]
end

/-- `sanitizeData` never rewrites a value it accepts. -/
theorem sanitizeData_id (d : String → List String) (body sb : JsValue)
    (h : sanitizeData d body = .ok sb) : sb = body := by
  unfold sanitizeData at h
  split at h
  · cases h; rfl
  · exact sanitizeValue_id d body sb h

/-- Phase 3 as a whole never rewrites the body it accepts. -/
theorem sanitizeStage_id (g : Bool) (d : String → List String) (body sb : JsValue)
    (h : (if g then sanitizeData d body else Except.ok body) = .ok sb) : sb = body := by
  split at h
  · exact sanitizeData_id d body sb h
  · cases h; rfl

/-- In the `try` body, every audit record's payload is the serialised
original body, and the `sanitizedBody` variable still holds the original
body when `finally` runs. -/
theorem forwardCore_payloads (env : ProxyEnv) (provider method path : String)
    (body : JsValue) :
    (∀ r ∈ (forwardCore env provider method path body).logs,
      r.anonymizedPayload = jsStringify body) ∧
    (forwardCore env provider method path body).sanitizedVar = body := by
  unfold forwardCore forwardCore.forwardAfterPolicy
  split
  · exact ⟨fun r hr => by simp only [List.mem_singleton] at hr; subst hr; rfl, rfl⟩
  · split
    · exact ⟨fun r hr => by simp only [List.mem_singleton] at hr; subst hr; rfl, rfl⟩
    · split
      · exact ⟨fun r hr => by simp only [List.mem_singleton] at hr; subst hr; rfl, rfl⟩
      · rename_i sb heq
        have hsb : sb = body := sanitizeStage_id _ _ _ _ heq
        subst hsb
        split
        · exact ⟨fun r hr => absurd hr (List.not_mem_nil r), rfl⟩
        · exact ⟨fun r hr => by simp only [List.mem_singleton] at hr; subst hr; rfl, rfl⟩
        · split
          · exact ⟨fun r hr => by simp only [List.mem_singleton] at hr; subst hr; rfl, rfl⟩
          · split
            · exact ⟨fun r hr => absurd hr (List.not_mem_nil r), rfl⟩
            · exact ⟨fun r hr => absurd hr (List.not_mem_nil r), rfl⟩
        · split
          · exact ⟨fun r hr => by simp only [List.mem_singleton] at hr; subst hr; rfl, rfl⟩
          · split
            · exact ⟨fun r hr => absurd hr (List.not_mem_nil r), rfl⟩
            · exact ⟨fun r hr => absurd hr (List.not_mem_nil r), rfl⟩

/-- C2 (amended): every audit record a run produces persists the
serialisation of the ORIGINAL request body.  Sanitisation is
detect-and-reject, so it never rewrites an accepted body, and the
blocked-sensitive branch logs the raw body — detected sensitive strings
included. -/
theorem logs_persist_original_body (env : ProxyEnv) (provider method path : String)
    (body : JsValue) (r : LogRecord)
    (hr : r ∈ (forwardRequest env provider method path body).logs) :
    r.anonymizedPayload = jsStringify body := by
  have hc := forwardCore_payloads env provider method path body
  simp only [forwardRequest] at hr
  split at hr
  · exact hc.1 r hr
  · rw [List.mem_append] at hr
    rcases hr with hr | hr
    · exact hc.1 r hr
    · simp only [List.mem_singleton] at hr
      subst hr
      simp [mkLog, hc.2]

/-- The scenario-3 environment: the detector finds the email address. -/
def c2env : ProxyEnv :=
  { enableRateLimiting := true, enableTimeBlocking := true, enableSanitization := true,
    enableCaching := true, enablePolicyEnforcement := true, strictMode := true,
    hasReq := true, rateAllowed := true, currentSeconds := 30,
    detect := fun s => if strContains s "john@example.com" then ["email"] else [],
    oracle := nonFinancialOracle, cached := none,
    upstream := .ok { status := 200, data := "U" } }

/-- The scenario-3 body carrying an email address. -/
def c2body : JsValue :=
  .obj (mkObj [("model", .str "m"),
    ("messages", .arr (mkArr
      [.obj (mkObj [("role", .str "user"),
                    ("content", .str "mail john@example.com")])]))])

/-- Counterexample to C2: a request blocked for sensitive data persists
the detected sensitive string — the one audit record's payload is the
raw body, and it contains `john@example.com`. -/
theorem sensitive_block_persists_sensitive_string :
    (forwardRequest c2env "openai" "POST" "/v1/chat/completions" c2body).action =
      .BLOCKED_SENSITIVE_DATA ∧
    (forwardRequest c2env "openai" "POST" "/v1/chat/completions" c2body).logs.map
      LogRecord.anonymizedPayload = [jsStringify c2body] ∧
    strContains (jsStringify c2body) "john@example.com" = true := by
  refine ⟨by decide, by decide, by decide⟩

/-- A placeholder record for safe list indexing. -/
def noRecord : LogRecord := mkLog "" .null .PROXIED "" none

/-- Witness for the amended C2: the blocked-sensitive run's record
persists the serialised original body. -/
theorem logs_persist_original_body_witness :
    ((forwardRequest c2env "openai" "POST" "/v1/chat/completions" c2body).logs.getD 0
      noRecord).anonymizedPayload = jsStringify c2body :=
  logs_persist_original_body c2env "openai" "POST" "/v1/chat/completions" c2body _
    (by decide)

end LassoProxy
